import Mathlib

/-!
Verification development for the Contoso recommendation system
(user-based collaborative filtering, `src/app.py`).

The three core functions of the source are shallowly embedded here:

* `criar_matriz_interacao` — `df_vendas.pivot_table(index='CustomerKey',
  columns='ProductKey', values='TotalQtd', fill_value=0)`.  pandas
  `pivot_table` uses `aggfunc='mean'` by default and sorts row and column
  labels ascending; on an empty input it yields an empty frame.  Quantities
  are embedded as exact rationals.
* `calcular_similaridades` — `sklearn.metrics.pairwise.cosine_similarity`,
  embedded over the real numbers.  sklearn normalises each row, leaving
  all-zero rows at zero, so a pair involving an all-zero row gets
  similarity 0; this is the `if`-guard in `cosineSim`.
* `obter_recomendacoes` — embedded with an explicit error type for the
  pandas `KeyError`s that the Python code can raise (`matriz.loc[cliente_id]`
  when the target is not a row; `df_similaridade[cliente_id]` when the
  column is missing; `matriz.loc[vizinho_id]` for a neighbour that is not a
  row of the matrix).  Similarity scores are kept generic over a linear
  order (the algorithm only compares and maximises them); concrete
  instances use `ℚ`.

Sorting semantics, modelled after the libraries the source uses:

* `Series.sort_values(ascending=False)` (pandas `nargsort`) argsorts
  ascending and then reverses the whole indexer, so tied values appear in
  reversed original order.  numpy's sort is insertion sort (stable) for the
  small inputs considered here.  This is `sortValuesDesc` = reverse of a
  stable ascending insertion sort.
* Python's builtin `sorted(..., reverse=True)` is stable, keeping tied
  values in original (here: dict-insertion) order.  This is
  `sortDescStable`.
* A Python `dict` preserves insertion order: updates keep the position of
  an existing key, new keys are appended.  This is `atualiza` on an
  association list.
* Python `set` iteration order is implementation defined; the embedding
  fixes it as the matrix column order (the order the products were filtered
  in), and no theorem below depends on a finer choice.
-/

deriving instance DecidableEq for Except

namespace Contoso

open List

/-- One row of `df_vendas`: `(CustomerKey, ProductKey, TotalQtd)`. -/
structure Transacao where
  customerKey : Nat
  productKey : Nat
  totalQtd : ℚ
deriving DecidableEq, Repr

/-- The customer×product interaction matrix (`pivot_table` result):
row labels, column labels, and the cell contents. -/
structure MatrizInteracao where
  rows : List Nat
  cols : List Nat
  entry : Nat → Nat → ℚ

/-- A similarity DataFrame with scores in `α`: row index, column labels,
and the score at (row label, column label). -/
structure SimDF (α : Type) where
  idx : List Nat
  cols : List Nat
  val : Nat → Nat → α

section Sorting

variable {β γ : Type} [LinearOrder γ]

/-- Insert `x` into `l` keeping `key`-ascending order; `x` goes after any
element with an equal key (stability for a left fold). -/
def insAsc (key : β → γ) (x : β) : List β → List β
  | [] => [x]
  | y :: ys => if key x < key y then x :: y :: ys else y :: insAsc key x ys

/-- Stable ascending insertion sort (numpy's stable argsort on small input). -/
def sortAsc (key : β → γ) (l : List β) : List β :=
  l.foldl (fun acc x => insAsc key x acc) []

/-- pandas `sort_values(ascending=False)`: stable ascending argsort, then
the whole indexer is reversed (ties come out in reversed original order). -/
def sortValuesDesc (key : β → γ) (l : List β) : List β :=
  (sortAsc key l).reverse

/-- Insert `x` into `l` keeping `key`-descending order; `x` goes after any
element with an equal key. -/
def insDesc (key : β → γ) (x : β) : List β → List β
  | [] => [x]
  | y :: ys => if key y < key x then x :: y :: ys else y :: insDesc key x ys

/-- Python's stable `sorted(..., reverse=True)`: ties keep insertion order. -/
def sortDescStable (key : β → γ) (l : List β) : List β :=
  l.foldl (fun acc x => insDesc key x acc) []

theorem insAsc_perm (key : β → γ) (x : β) (l : List β) :
    insAsc key x l ~ x :: l := by
  induction l with
  | nil => simp [insAsc]
  | cons y ys ih =>
    by_cases h : key x < key y
    · simp [insAsc, h]
    · simp only [insAsc, if_neg h]
      exact (ih.cons y).trans (List.Perm.swap x y ys)

theorem foldl_insAsc_perm (key : β → γ) :
    ∀ (l acc : List β), l.foldl (fun a x => insAsc key x a) acc ~ l ++ acc := by
  intro l
  induction l with
  | nil => intro acc; simp
  | cons x l ih =>
    intro acc
    calc (x :: l).foldl (fun a x => insAsc key x a) acc
        = l.foldl (fun a x => insAsc key x a) (insAsc key x acc) := rfl
      _ ~ l ++ insAsc key x acc := ih _
      _ ~ l ++ (x :: acc) := List.Perm.append_left l (insAsc_perm key x acc)
      _ ~ x :: (l ++ acc) := List.perm_middle
      _ = (x :: l) ++ acc := rfl

theorem sortAsc_perm (key : β → γ) (l : List β) : sortAsc key l ~ l := by
  simpa using foldl_insAsc_perm key l []

theorem sortValuesDesc_perm (key : β → γ) (l : List β) :
    sortValuesDesc key l ~ l :=
  (List.reverse_perm _).trans (sortAsc_perm key l)

theorem insAsc_pairwise (key : β → γ) (x : β) {l : List β}
    (h : l.Pairwise (fun a b => key a ≤ key b)) :
    (insAsc key x l).Pairwise (fun a b => key a ≤ key b) := by
  induction l with
  | nil => simp [insAsc]
  | cons y ys ih =>
    rcases List.pairwise_cons.mp h with ⟨hy, hys⟩
    by_cases hxy : key x < key y
    · simp only [insAsc, if_pos hxy]
      refine List.pairwise_cons.mpr ⟨?_, h⟩
      intro z hz
      rcases List.mem_cons.mp hz with rfl | hz
      · exact le_of_lt hxy
      · exact (le_of_lt hxy).trans (hy z hz)
    · simp only [insAsc, if_neg hxy]
      refine List.pairwise_cons.mpr ⟨?_, ih hys⟩
      intro z hz
      have hz' : z ∈ x :: ys := (insAsc_perm key x ys).mem_iff.mp hz
      rcases List.mem_cons.mp hz' with rfl | hz'
      · exact le_of_not_lt hxy
      · exact hy z hz'

theorem sortAsc_pairwise (key : β → γ) (l : List β) :
    (sortAsc key l).Pairwise (fun a b => key a ≤ key b) := by
  have : ∀ (l acc : List β), acc.Pairwise (fun a b => key a ≤ key b) →
      (l.foldl (fun a x => insAsc key x a) acc).Pairwise
        (fun a b => key a ≤ key b) := by
    intro l
    induction l with
    | nil => intro acc h; simpa using h
    | cons x l ih => intro acc h; exact ih _ (insAsc_pairwise key x h)
  exact this l [] (by simp)

theorem sortValuesDesc_pairwise (key : β → γ) (l : List β) :
    (sortValuesDesc key l).Pairwise (fun a b => key b ≤ key a) := by
  have := sortAsc_pairwise key l
  simpa [sortValuesDesc, List.pairwise_reverse] using this

theorem insDesc_perm (key : β → γ) (x : β) (l : List β) :
    insDesc key x l ~ x :: l := by
  induction l with
  | nil => simp [insDesc]
  | cons y ys ih =>
    by_cases h : key y < key x
    · simp [insDesc, h]
    · simp only [insDesc, if_neg h]
      exact (ih.cons y).trans (List.Perm.swap x y ys)

theorem foldl_insDesc_perm (key : β → γ) :
    ∀ (l acc : List β), l.foldl (fun a x => insDesc key x a) acc ~ l ++ acc := by
  intro l
  induction l with
  | nil => intro acc; simp
  | cons x l ih =>
    intro acc
    calc (x :: l).foldl (fun a x => insDesc key x a) acc
        = l.foldl (fun a x => insDesc key x a) (insDesc key x acc) := rfl
      _ ~ l ++ insDesc key x acc := ih _
      _ ~ l ++ (x :: acc) := List.Perm.append_left l (insDesc_perm key x acc)
      _ ~ x :: (l ++ acc) := List.perm_middle
      _ = (x :: l) ++ acc := rfl

theorem sortDescStable_perm (key : β → γ) (l : List β) :
    sortDescStable key l ~ l := by
  simpa using foldl_insDesc_perm key l []

theorem insDesc_pairwise (key : β → γ) (x : β) {l : List β}
    (h : l.Pairwise (fun a b => key b ≤ key a)) :
    (insDesc key x l).Pairwise (fun a b => key b ≤ key a) := by
  induction l with
  | nil => simp [insDesc]
  | cons y ys ih =>
    rcases List.pairwise_cons.mp h with ⟨hy, hys⟩
    by_cases hxy : key y < key x
    · simp only [insDesc, if_pos hxy]
      refine List.pairwise_cons.mpr ⟨?_, h⟩
      intro z hz
      rcases List.mem_cons.mp hz with rfl | hz
      · exact le_of_lt hxy
      · exact (hy z hz).trans (le_of_lt hxy)
    · simp only [insDesc, if_neg hxy]
      refine List.pairwise_cons.mpr ⟨?_, ih hys⟩
      intro z hz
      have hz' : z ∈ x :: ys := (insDesc_perm key x ys).mem_iff.mp hz
      rcases List.mem_cons.mp hz' with rfl | hz'
      · exact le_of_not_lt hxy
      · exact hy z hz'

theorem sortDescStable_pairwise (key : β → γ) (l : List β) :
    (sortDescStable key l).Pairwise (fun a b => key b ≤ key a) := by
  have : ∀ (l acc : List β), acc.Pairwise (fun a b => key b ≤ key a) →
      (l.foldl (fun a x => insDesc key x a) acc).Pairwise
        (fun a b => key b ≤ key a) := by
    intro l
    induction l with
    | nil => intro acc h; simpa using h
    | cons x l ih => intro acc h; exact ih _ (insDesc_pairwise key x h)
  exact this l [] (by simp)

/-- If `t` is an element whose key is strictly greater than the key of every
other element, then the pandas-style descending sort puts `t` first, and the
rest is a permutation of the remaining elements. -/
theorem sortValuesDesc_eq_cons_of_strictMax [DecidableEq β] (key : β → γ)
    {l : List β} {t : β} (ht : t ∈ l)
    (hmax : ∀ y ∈ l, y ≠ t → key y < key t) :
    ∃ r, sortValuesDesc key l = t :: r ∧ r ~ l.erase t := by
  have hperm : sortValuesDesc key l ~ l := sortValuesDesc_perm key l
  have hpw := sortValuesDesc_pairwise key l
  cases hs : sortValuesDesc key l with
  | nil =>
    exfalso
    have : t ∈ sortValuesDesc key l := hperm.mem_iff.mpr ht
    rw [hs] at this
    simp at this
  | cons h r =>
    rw [hs] at hperm hpw
    have hmem : t ∈ h :: r := hperm.mem_iff.mpr ht
    by_cases hht : h = t
    · subst hht
      refine ⟨r, rfl, ?_⟩
      have h1 : l ~ h :: l.erase h := List.perm_cons_erase ht
      exact (hperm.trans h1).cons_inv
    · exfalso
      rcases List.mem_cons.mp hmem with rfl | hmem'
      · exact hht rfl
      · have h1 : key t ≤ key h :=
          (List.pairwise_cons.mp hpw).1 t hmem'
        have h2 : key h < key t :=
          hmax h (hperm.mem_iff.mp (List.mem_cons_self h r)) hht
        exact absurd h1 (not_le.mpr h2)

end Sorting

/-- Quantities of the input records matching the pair `(c, p)`
(the group that `pivot_table` aggregates into cell `(c, p)`). -/
def registrosPar (dados : List Transacao) (c p : Nat) : List ℚ :=
  (dados.filter fun t => decide (t.customerKey = c ∧ t.productKey = p)).map
    Transacao.totalQtd

/-- Embedding of `criar_matriz_interacao`: `pivot_table(index='CustomerKey',
columns='ProductKey', values='TotalQtd', fill_value=0)` — row and column
labels are the distinct keys sorted ascending, each cell holds the
arithmetic mean of its group (pandas default `aggfunc='mean'`), and cells
with no matching record hold the `fill_value` 0. -/
def criar_matriz_interacao (dados : List Transacao) : MatrizInteracao where
  rows := sortAsc id (dados.map Transacao.customerKey).dedup
  cols := sortAsc id (dados.map Transacao.productKey).dedup
  entry := fun c p =>
    if (registrosPar dados c p).length = 0 then 0
    else (registrosPar dados c p).sum / (registrosPar dados c p).length

/-- Dot product of two quantity vectors. -/
def dotQ (v w : List ℚ) : ℚ := (List.zipWith (· * ·) v w).sum

/-- The quantity vector of customer `c`: the row of the matrix in column
order. -/
def rowVec (m : MatrizInteracao) (c : Nat) : List ℚ := m.cols.map (m.entry c)

/-- sklearn's `cosine_similarity` on two rows, over the reals: each row is
L2-normalised, an all-zero row (zero norm) is left as zero, so any pair
involving an all-zero row gets similarity 0. -/
noncomputable def cosineSim (v w : List ℚ) : ℝ :=
  if dotQ v v = 0 ∨ dotQ w w = 0 then 0
  else (dotQ v w : ℝ) / (Real.sqrt (dotQ v v) * Real.sqrt (dotQ w w))

/-- Embedding of `calcular_similaridades`: the customer×customer cosine-similarity
DataFrame, indexed on both axes by the matrix's row labels. -/
noncomputable def calcular_similaridades (m : MatrizInteracao) : SimDF ℝ where
  idx := m.rows
  cols := m.rows
  val := fun i j => cosineSim (rowVec m i) (rowVec m j)

/-- The distinguishable failures of `obter_recomendacoes` (pandas
`KeyError`s at the three lookup sites of the Python function). -/
inductive RecError where
  /-- Failure of `matriz.loc[cliente_id]` with a target that is not a row. -/
  | unknownCustomer : RecError
  /-- Failure of `df_similaridade[cliente_id]` with a missing column. -/
  | colunaAusente : RecError
  /-- Failure of `matriz.loc[vizinho_id]` with a neighbour that is not a row. -/
  | vizinhoDesconhecido : RecError
deriving DecidableEq, Repr

/-- The per-product aggregation record: `{'score': ..., 'vizinhos': [...]}`. -/
structure RecInfo (α : Type) where
  score : α
  vizinhos : List Nat
deriving DecidableEq, Repr

/-- The triple returned by `obter_recomendacoes`. -/
structure RecResult (α : Type) where
  produtos_comprados : List Nat
  similares : List (Nat × α)
  recomendacoes : List (Nat × RecInfo α)
deriving DecidableEq, Repr

/-- Embedding of `set(matriz.loc[c][matriz.loc[c] > 0].index)`: the products customer `c`
purchased (positive quantity), in matrix column order, deduplicated. -/
def positiveProducts (m : MatrizInteracao) (c : Nat) : List Nat :=
  (m.cols.filter fun p => decide (0 < m.entry c p)).dedup

/-- Embedding of `produtos_vizinho - produtos_comprados`: the neighbour's purchased
products that the target has not purchased. -/
def produtosNovos (m : MatrizInteracao) (comprados : List Nat) (v : Nat) :
    List Nat :=
  (positiveProducts m v).filter fun p => decide (p ∉ comprados)

/-- Ordered-dictionary lookup on the aggregation association list. -/
def busca {α : Type} : List (Nat × RecInfo α) → Nat → Option (RecInfo α)
  | [], _ => none
  | pe :: rest, p => if pe.1 = p then some pe.2 else busca rest p

/-- One `for produto in produtos_novos` body: insert the product with the
neighbour's score, or keep its dict position and update
`score := max(score, similaridade_score)`, appending the neighbour. -/
def atualiza {α : Type} [LinearOrder α] (a : List (Nat × RecInfo α))
    (produto : Nat) (vs : Nat × α) : List (Nat × RecInfo α) :=
  if (busca a produto).isSome then
    a.map fun pe =>
      if pe.1 = produto then (pe.1, ⟨max pe.2.score vs.2, pe.2.vizinhos ++ [vs.1]⟩)
      else pe
  else a ++ [(produto, ⟨vs.2, [vs.1]⟩)]

/-- One iteration of the neighbour loop: fold the neighbour's novel
products into the aggregation dictionary. -/
def processaVizinho {α : Type} [LinearOrder α] (m : MatrizInteracao)
    (comprados : List Nat) (acc : List (Nat × RecInfo α)) (vs : Nat × α) :
    List (Nat × RecInfo α) :=
  (produtosNovos m comprados vs.1).foldl (fun a produto => atualiza a produto vs) acc

/-- The whole neighbour loop (lines 115–128 of `app.py`), starting from the
empty dictionary. -/
def agregaRecs {α : Type} [LinearOrder α] (m : MatrizInteracao)
    (comprados : List Nat) (sims : List (Nat × α)) : List (Nat × RecInfo α) :=
  sims.foldl (fun acc vs => processaVizinho m comprados acc vs) []

/-- The target's column of the similarity DataFrame as (customer, score)
pairs in index order. -/
def colunaSim {α : Type} (s : SimDF α) (cliente : Nat) : List (Nat × α) :=
  s.idx.map fun c => (c, s.val c cliente)

/-- Embedding of `df_similaridade[cliente_id].sort_values(ascending=False)[1:n_vizinhos+1]`:
sort the column descending, drop the first entry, take the next
`n_vizinhos`. -/
def similaresDe {α : Type} [LinearOrder α] (s : SimDF α) (cliente k : Nat) :
    List (Nat × α) :=
  ((sortValuesDesc Prod.snd (colunaSim s cliente)).drop 1).take k

/-- Embedding of `obter_recomendacoes(cliente_id, matriz, df_similaridade, n_vizinhos)`. -/
def obter_recomendacoes {α : Type} [LinearOrder α] (cliente_id : Nat)
    (matriz : MatrizInteracao) (df_similaridade : SimDF α) (n_vizinhos : Nat) :
    Except RecError (RecResult α) :=
  if cliente_id ∈ matriz.rows then
    if cliente_id ∈ df_similaridade.cols then
      if ∀ vs ∈ similaresDe df_similaridade cliente_id n_vizinhos,
          vs.1 ∈ matriz.rows then
        .ok ⟨positiveProducts matriz cliente_id,
             similaresDe df_similaridade cliente_id n_vizinhos,
             sortDescStable (fun pe => pe.2.score)
               (agregaRecs matriz (positiveProducts matriz cliente_id)
                 (similaresDe df_similaridade cliente_id n_vizinhos))⟩
      else .error .vizinhoDesconhecido
    else .error .colunaAusente
  else .error .unknownCustomer

/-- The result of a successful call, `none` on an error. -/
def resultOf {ε α : Type} : Except ε α → Option α
  | .ok v => some v
  | .error _ => none

/-- The `produtos_comprados` component of a successful call ([] on error). -/
def compradosOf {α : Type} : Except RecError (RecResult α) → List Nat
  | .ok v => v.produtos_comprados
  | .error _ => []

/-- The `similares` component of a successful call ([] on error). -/
def similaresOf {α : Type} : Except RecError (RecResult α) → List (Nat × α)
  | .ok v => v.similares
  | .error _ => []

/-- The `recomendacoes_ordenadas` component of a successful call
([] on error). -/
def recsOf {α : Type} : Except RecError (RecResult α) → List (Nat × RecInfo α)
  | .ok v => v.recomendacoes
  | .error _ => []

theorem dotQ_cons (x y : ℚ) (xs ys : List ℚ) :
    dotQ (x :: xs) (y :: ys) = x * y + dotQ xs ys := by
  simp [dotQ]

theorem dotQ_self_nonneg (v : List ℚ) : 0 ≤ dotQ v v := by
  induction v with
  | nil => simp [dotQ]
  | cons x xs ih =>
    rw [dotQ_cons]
    exact add_nonneg (mul_self_nonneg x) ih

theorem dotQ_self_eq_zero_iff (v : List ℚ) :
    dotQ v v = 0 ↔ ∀ x ∈ v, x = 0 := by
  induction v with
  | nil => simp [dotQ]
  | cons x xs ih =>
    rw [dotQ_cons]
    rw [add_eq_zero_iff_of_nonneg (mul_self_nonneg x) (dotQ_self_nonneg xs)]
    simp [mul_self_eq_zero, ih]

theorem dotQ_comm (v w : List ℚ) : dotQ v w = dotQ w v := by
  induction v generalizing w with
  | nil => cases w <;> simp [dotQ]
  | cons x xs ih =>
    cases w with
    | nil => simp [dotQ]
    | cons y ys => rw [dotQ_cons, dotQ_cons, mul_comm, ih]

theorem obter_eq_ok {α : Type} [LinearOrder α] {cliente : Nat}
    {m : MatrizInteracao} {s : SimDF α} {k : Nat}
    (h1 : cliente ∈ m.rows) (h2 : cliente ∈ s.cols)
    (h3 : ∀ vs ∈ similaresDe s cliente k, vs.1 ∈ m.rows) :
    obter_recomendacoes cliente m s k =
      .ok ⟨positiveProducts m cliente, similaresDe s cliente k,
           sortDescStable (fun pe => pe.2.score)
             (agregaRecs m (positiveProducts m cliente)
               (similaresDe s cliente k))⟩ := by
  simp only [obter_recomendacoes, if_pos h1, if_pos h2, if_pos h3]

/-! ## Characterisation of the neighbour-aggregation loop -/

/-- Effect of one neighbour contribution on one dictionary entry. -/
def acrescenta {α : Type} [LinearOrder α] (vs : Nat × α) :
    Option (RecInfo α) → Option (RecInfo α)
  | none => some ⟨vs.2, [vs.1]⟩
  | some e => some ⟨max e.score vs.2, e.vizinhos ++ [vs.1]⟩

/-- The selected neighbours that contribute the product `p` (those whose
novel-product set contains `p`), in processing order. -/
def suporte {α : Type} (m : MatrizInteracao) (comprados : List Nat)
    (sims : List (Nat × α)) (p : Nat) : List (Nat × α) :=
  sims.filter fun vs => decide (p ∈ produtosNovos m comprados vs.1)

/-- Maximum of `s` and the scores of `l`, folded left like the loop. -/
def maxScore {α : Type} [LinearOrder α] (s : α) (l : List (Nat × α)) : α :=
  l.foldl (fun a vs => max a vs.2) s

/-- The dictionary entry produced by a supporter list. -/
def resumo {α : Type} [LinearOrder α] : List (Nat × α) → Option (RecInfo α)
  | [] => none
  | vs :: rest => some ⟨maxScore vs.2 rest, (vs :: rest).map Prod.fst⟩

theorem busca_map_upd {α : Type} [LinearOrder α]
    (a : List (Nat × RecInfo α)) (q : Nat) (vs : Nat × α) (p : Nat) :
    busca (a.map fun pe =>
        if pe.1 = q then (pe.1, ⟨max pe.2.score vs.2, pe.2.vizinhos ++ [vs.1]⟩)
        else pe) p =
      if p = q then
        (busca a p).map fun e => ⟨max e.score vs.2, e.vizinhos ++ [vs.1]⟩
      else busca a p := by
  induction a with
  | nil => by_cases hpq : p = q <;> simp [busca, hpq]
  | cons pe rest ih =>
    by_cases hpe : pe.1 = p
    · by_cases hpq : p = q
      · simp [busca, hpe, hpq, hpe.trans hpq]
      · have hq : ¬ pe.1 = q := fun hc => hpq (hpe.symm.trans hc)
        simp [busca, hpe, hpq, hq]
    · by_cases hq : pe.1 = q
      · have hqp : ¬ q = p := fun hc => hpe (hq.trans hc)
        have hpq : ¬ p = q := fun hc => hqp hc.symm
        simp [busca, hpe, hq, hpq, hqp, ih]
      · simp [busca, hpe, hq, ih]

theorem busca_append {α : Type} (a b : List (Nat × RecInfo α)) (p : Nat) :
    busca (a ++ b) p =
      if (busca a p).isSome then busca a p else busca b p := by
  induction a with
  | nil => simp [busca]
  | cons pe rest ih =>
    by_cases hpe : pe.1 = p
    · simp [busca, hpe]
    · simp [busca, hpe, ih]

theorem busca_atualiza {α : Type} [LinearOrder α]
    (a : List (Nat × RecInfo α)) (q : Nat) (vs : Nat × α) (p : Nat) :
    busca (atualiza a q vs) p =
      if p = q then acrescenta vs (busca a p) else busca a p := by
  unfold atualiza
  by_cases hs : (busca a q).isSome
  · rw [if_pos hs, busca_map_upd]
    by_cases hpq : p = q
    · subst hpq
      rw [if_pos rfl, if_pos rfl]
      cases h : busca a p with
      | none => rw [h] at hs; simp at hs
      | some e => simp [acrescenta]
    · rw [if_neg hpq, if_neg hpq]
  · rw [if_neg hs, busca_append]
    by_cases hpq : p = q
    · subst hpq
      have hnone : busca a p = none :=
        Option.not_isSome_iff_eq_none.mp hs
      rw [hnone]
      simp [busca, acrescenta]
    · by_cases hsp : (busca a p).isSome
      · rw [if_pos hsp, if_neg hpq]
      · have hqp : ¬ q = p := fun hc => hpq hc.symm
        rw [if_neg hsp, if_neg hpq,
          Option.not_isSome_iff_eq_none.mp hsp]
        simp [busca, hqp]

theorem busca_foldl_atualiza {α : Type} [LinearOrder α] (vs : Nat × α) :
    ∀ (qs : List Nat), qs.Nodup → ∀ (acc : List (Nat × RecInfo α)) (p : Nat),
      busca (qs.foldl (fun a q => atualiza a q vs) acc) p =
        if p ∈ qs then acrescenta vs (busca acc p) else busca acc p := by
  intro qs
  induction qs with
  | nil => intro _ acc p; simp
  | cons q qs' ih =>
    intro hnd acc p
    have hq : q ∉ qs' := (List.nodup_cons.mp hnd).1
    have hnd' : qs'.Nodup := (List.nodup_cons.mp hnd).2
    show busca (qs'.foldl (fun a q => atualiza a q vs) (atualiza acc q vs)) p = _
    rw [ih hnd' (atualiza acc q vs) p, busca_atualiza]
    by_cases hpq : p = q
    · subst hpq
      rw [if_neg hq, if_pos rfl, if_pos (List.mem_cons_self p qs')]
    · by_cases hps : p ∈ qs'
      · rw [if_pos hps, if_neg hpq, if_pos (List.mem_cons_of_mem q hps)]
      · rw [if_neg hps, if_neg hpq,
          if_neg (fun hc => (List.mem_cons.mp hc).elim hpq hps)]

theorem produtosNovos_nodup (m : MatrizInteracao) (comprados : List Nat)
    (v : Nat) : (produtosNovos m comprados v).Nodup :=
  (List.nodup_dedup _).filter _

theorem busca_processaVizinho {α : Type} [LinearOrder α]
    (m : MatrizInteracao) (comprados : List Nat)
    (acc : List (Nat × RecInfo α)) (vs : Nat × α) (p : Nat) :
    busca (processaVizinho m comprados acc vs) p =
      if p ∈ produtosNovos m comprados vs.1 then acrescenta vs (busca acc p)
      else busca acc p :=
  busca_foldl_atualiza vs _ (produtosNovos_nodup m comprados vs.1) acc p

theorem maxScore_append {α : Type} [LinearOrder α] (s : α)
    (l1 l2 : List (Nat × α)) :
    maxScore s (l1 ++ l2) = maxScore (maxScore s l1) l2 := by
  simp [maxScore, List.foldl_append]

theorem acrescenta_resumo {α : Type} [LinearOrder α]
    (sup : List (Nat × α)) (n : Nat × α) :
    acrescenta n (resumo sup) = resumo (sup ++ [n]) := by
  cases sup with
  | nil => simp [resumo, acrescenta, maxScore]
  | cons vs rest =>
    simp only [resumo, acrescenta, List.cons_append, maxScore_append]
    simp [maxScore]

theorem busca_agregaRecs {α : Type} [LinearOrder α] (m : MatrizInteracao)
    (comprados : List Nat) (sims : List (Nat × α)) (p : Nat) :
    busca (agregaRecs m comprados sims) p =
      resumo (suporte m comprados sims p) := by
  induction sims using List.reverseRecOn with
  | nil => simp [agregaRecs, suporte, resumo, busca]
  | append_singleton sims n ih =>
    have hfold : agregaRecs m comprados (sims ++ [n]) =
        processaVizinho m comprados (agregaRecs m comprados sims) n := by
      simp [agregaRecs, List.foldl_append]
    rw [hfold, busca_processaVizinho, ih]
    have hsup : suporte m comprados (sims ++ [n]) p =
        suporte m comprados sims p ++
          (if p ∈ produtosNovos m comprados n.1 then [n] else []) := by
      simp only [suporte, List.filter_append]
      congr 1
      by_cases hn : p ∈ produtosNovos m comprados n.1 <;> simp [hn]
    rw [hsup]
    by_cases hn : p ∈ produtosNovos m comprados n.1
    · rw [if_pos hn, if_pos hn, acrescenta_resumo]
    · rw [if_neg hn, if_neg hn, List.append_nil]

theorem busca_eq_none_iff {α : Type} (a : List (Nat × RecInfo α)) (p : Nat) :
    busca a p = none ↔ p ∉ a.map Prod.fst := by
  induction a with
  | nil => simp [busca]
  | cons pe rest ih =>
    by_cases hpe : pe.1 = p
    · simp [busca, hpe]
    · rw [busca, if_neg hpe, ih]
      simp only [List.map_cons, List.mem_cons]
      constructor
      · intro hn hc
        rcases hc with hc | hc
        · exact hpe hc.symm
        · exact hn hc
      · intro hn hc
        exact hn (Or.inr hc)

theorem atualiza_keys_nodup {α : Type} [LinearOrder α]
    {a : List (Nat × RecInfo α)} (q : Nat) (vs : Nat × α)
    (h : (a.map Prod.fst).Nodup) :
    ((atualiza a q vs).map Prod.fst).Nodup := by
  unfold atualiza
  by_cases hs : (busca a q).isSome
  · rw [if_pos hs]
    have : (a.map fun pe =>
        if pe.1 = q then (pe.1, ⟨max pe.2.score vs.2, pe.2.vizinhos ++ [vs.1]⟩)
        else pe).map Prod.fst = a.map Prod.fst := by
      rw [List.map_map]
      apply List.map_congr_left
      intro pe _
      by_cases hq : pe.1 = q <;> simp [hq]
    rw [this]
    exact h
  · rw [if_neg hs]
    have hq : q ∉ a.map Prod.fst :=
      (busca_eq_none_iff a q).mp (Option.not_isSome_iff_eq_none.mp hs)
    simp only [List.map_append, List.map_cons, List.map_nil]
    rw [List.nodup_append]
    exact ⟨h, List.nodup_singleton q, by simpa using fun hc => hq hc⟩

theorem foldl_atualiza_keys_nodup {α : Type} [LinearOrder α] (vs : Nat × α) :
    ∀ (qs : List Nat) (acc : List (Nat × RecInfo α)),
      (acc.map Prod.fst).Nodup →
      ((qs.foldl (fun a q => atualiza a q vs) acc).map Prod.fst).Nodup := by
  intro qs
  induction qs with
  | nil => intro acc h; exact h
  | cons q qs' ih =>
    intro acc h
    exact ih (atualiza acc q vs) (atualiza_keys_nodup q vs h)

theorem agregaRecs_keys_nodup {α : Type} [LinearOrder α]
    (m : MatrizInteracao) (comprados : List Nat) (sims : List (Nat × α)) :
    ((agregaRecs m comprados sims).map Prod.fst).Nodup := by
  have : ∀ (l : List (Nat × α)) (acc : List (Nat × RecInfo α)),
      (acc.map Prod.fst).Nodup →
      ((l.foldl (fun acc vs => processaVizinho m comprados acc vs) acc).map
        Prod.fst).Nodup := by
    intro l
    induction l with
    | nil => intro acc h; exact h
    | cons vs l' ih =>
      intro acc h
      exact ih _ (foldl_atualiza_keys_nodup vs _ acc h)
  exact this sims [] (by simp)

theorem mem_iff_busca {α : Type} {a : List (Nat × RecInfo α)}
    (h : (a.map Prod.fst).Nodup) (p : Nat) (e : RecInfo α) :
    (p, e) ∈ a ↔ busca a p = some e := by
  induction a with
  | nil => simp [busca]
  | cons pe rest ih =>
    rw [List.map_cons] at h
    rcases List.nodup_cons.mp h with ⟨hpe, hrest⟩
    constructor
    · intro hmem
      rcases List.mem_cons.mp hmem with rfl | hmem'
      · simp [busca]
      · have hne : pe.1 ≠ p := by
          intro hc
          apply hpe
          rw [hc]
          exact List.mem_map.mpr ⟨(p, e), hmem', rfl⟩
        simp only [busca, if_neg hne]
        exact (ih hrest).mp hmem'
    · intro hb
      by_cases hne : pe.1 = p
      · rw [busca, if_pos hne] at hb
        have : pe = (p, e) := Prod.ext hne (Option.some_inj.mp hb)
        rw [← this]
        exact List.mem_cons_self pe rest
      · rw [busca, if_neg hne] at hb
        exact List.mem_cons_of_mem pe ((ih hrest).mpr hb)

theorem le_maxScore_init {α : Type} [LinearOrder α] (s : α)
    (l : List (Nat × α)) : s ≤ maxScore s l := by
  induction l generalizing s with
  | nil => exact le_refl s
  | cons vs l' ih =>
    calc s ≤ max s vs.2 := le_max_left s vs.2
      _ ≤ maxScore (max s vs.2) l' := ih _
      _ = maxScore s (vs :: l') := rfl

theorem le_maxScore_mem {α : Type} [LinearOrder α] {vs : Nat × α}
    {l : List (Nat × α)} (h : vs ∈ l) (s : α) : vs.2 ≤ maxScore s l := by
  induction l generalizing s with
  | nil => simp at h
  | cons w l' ih =>
    rcases List.mem_cons.mp h with rfl | h'
    · calc vs.2 ≤ max s vs.2 := le_max_right s vs.2
        _ ≤ maxScore (max s vs.2) l' := le_maxScore_init _ _
        _ = maxScore s (vs :: l') := rfl
    · exact ih h' (max s w.2)

theorem maxScore_attained {α : Type} [LinearOrder α] (s : α)
    (l : List (Nat × α)) :
    maxScore s l = s ∨ ∃ vs ∈ l, maxScore s l = vs.2 := by
  induction l generalizing s with
  | nil => exact Or.inl rfl
  | cons vs l' ih =>
    have hstep : maxScore s (vs :: l') = maxScore (max s vs.2) l' := rfl
    rcases ih (max s vs.2) with h | ⟨w, hw, hww⟩
    · rcases max_choice s vs.2 with hm | hm
      · exact Or.inl (by rw [hstep, h, hm])
      · exact Or.inr ⟨vs, List.mem_cons_self vs l', by rw [hstep, h, hm]⟩
    · exact Or.inr ⟨w, List.mem_cons_of_mem vs hw, by rw [hstep, hww]⟩

/-! ## Claims about the similarity engine -/

/-- C7: in the similarity matrix computed by `calcular_similaridades`,
every pair `(i, j)` where at least one of the two customers has an
all-zero quantity vector has similarity exactly 0 (a value, not an error
or a not-a-number), and every customer with at least one non-zero
quantity has diagonal entry `sim(i,i)` exactly 1. -/
theorem calcular_similaridades_zero_vector_and_diag (m : MatrizInteracao) :
    (∀ i j, ((∀ x ∈ rowVec m i, x = 0) ∨ (∀ x ∈ rowVec m j, x = 0)) →
        (calcular_similaridades m).val i j = 0)
    ∧ (∀ i, (∃ x ∈ rowVec m i, x ≠ 0) →
        (calcular_similaridades m).val i i = 1) := by
  constructor
  · intro i j h
    have hz : dotQ (rowVec m i) (rowVec m i) = 0 ∨
        dotQ (rowVec m j) (rowVec m j) = 0 := by
      rcases h with h | h
      · exact Or.inl ((dotQ_self_eq_zero_iff _).mpr h)
      · exact Or.inr ((dotQ_self_eq_zero_iff _).mpr h)
    simp only [calcular_similaridades, cosineSim, if_pos hz]
  · intro i h
    have hnz : dotQ (rowVec m i) (rowVec m i) ≠ 0 := by
      intro h0
      rcases h with ⟨x, hx, hxne⟩
      exact hxne ((dotQ_self_eq_zero_iff _).mp h0 x hx)
    have hcond : ¬ (dotQ (rowVec m i) (rowVec m i) = 0 ∨
        dotQ (rowVec m i) (rowVec m i) = 0) := by
      intro hc
      rcases hc with hc | hc <;> exact hnz hc
    simp only [calcular_similaridades, cosineSim, if_neg hcond]
    have hpos : (0:ℝ) ≤ (dotQ (rowVec m i) (rowVec m i) : ℝ) := by
      exact_mod_cast dotQ_self_nonneg (rowVec m i)
    rw [Real.mul_self_sqrt hpos]
    exact div_self (by exact_mod_cast hnz)

/-- Interaction matrix used as concrete input for similarity claims:
customer 1 bought nothing (all-zero row), customer 2 bought 3 units of
product 5. -/
def mZero : MatrizInteracao where
  rows := [1, 2]
  cols := [5]
  entry := fun c _ => if c = 2 then 3 else 0

/-- Witness for C7 at `mZero`: customer 1 is all-zero, customer 2 is not;
`sim(1,2) = 0` and `sim(2,2) = 1`. -/
theorem calcular_similaridades_zero_vector_and_diag_witness :
    (∀ x ∈ rowVec mZero 1, x = 0) ∧ (∃ x ∈ rowVec mZero 2, x ≠ 0) ∧
      (calcular_similaridades mZero).val 1 2 = 0 ∧
      (calcular_similaridades mZero).val 2 2 = 1 :=
  ⟨by decide, by decide,
    (calcular_similaridades_zero_vector_and_diag mZero).1 1 2
      (Or.inl (by decide)),
    (calcular_similaridades_zero_vector_and_diag mZero).2 2 (by decide)⟩

/-- C8: the similarity matrix computed by `calcular_similaridades` is
symmetric: `sim(i,j) = sim(j,i)` for all customers `i`, `j`. -/
theorem calcular_similaridades_symm (m : MatrizInteracao) (i j : Nat) :
    (calcular_similaridades m).val i j = (calcular_similaridades m).val j i := by
  simp only [calcular_similaridades, cosineSim]
  by_cases h : dotQ (rowVec m i) (rowVec m i) = 0 ∨
      dotQ (rowVec m j) (rowVec m j) = 0
  · rw [if_pos h, if_pos h.symm]
  · rw [if_neg h, if_neg (fun hc => h hc.symm)]
    rw [dotQ_comm (rowVec m i) (rowVec m j), mul_comm]

/-! ## Claims about the interaction-matrix builder -/

/-- C2 counterexample: two records for the pair (customer 1, product 1)
with quantities 2 and 4 produce the cell value 3 — the arithmetic mean —
not the claimed sum 6 (pandas `pivot_table` defaults to `aggfunc='mean'`). -/
theorem criar_matriz_interacao_sum_counterexample :
    (criar_matriz_interacao [⟨1, 1, 2⟩, ⟨1, 1, 4⟩]).entry 1 1 = 3 ∧
      (3 : ℚ) ≠ 2 + 4 := by
  constructor
  · simp only [criar_matriz_interacao, registrosPar, List.filter, List.map]
    norm_num
  · norm_num

/-- C2 (amended): for every input containing at least one record for the
pair `(c, p)`, the matrix built by `criar_matriz_interacao` places at that
cell the arithmetic mean of the quantities of all records for the pair —
their sum divided by their number — not the sum. -/
theorem criar_matriz_interacao_duplicates_mean (dados : List Transacao)
    (c p : Nat) (h : registrosPar dados c p ≠ []) :
    (criar_matriz_interacao dados).entry c p =
      (registrosPar dados c p).sum / (registrosPar dados c p).length := by
  have hlen : (registrosPar dados c p).length ≠ 0 :=
    fun h0 => h (List.length_eq_zero.mp h0)
  simp only [criar_matriz_interacao, if_neg hlen]

/-- Witness for the amended C2 at the duplicated input
`[(1,1,2), (1,1,4)]`. -/
theorem criar_matriz_interacao_duplicates_mean_witness :
    registrosPar [⟨1, 1, 2⟩, ⟨1, 1, 4⟩] 1 1 ≠ [] ∧
      (criar_matriz_interacao [⟨1, 1, 2⟩, ⟨1, 1, 4⟩]).entry 1 1 =
        (registrosPar [⟨1, 1, 2⟩, ⟨1, 1, 4⟩] 1 1).sum /
          (registrosPar [⟨1, 1, 2⟩, ⟨1, 1, 4⟩] 1 1).length :=
  ⟨by decide,
    criar_matriz_interacao_duplicates_mean [⟨1, 1, 2⟩, ⟨1, 1, 4⟩] 1 1 (by decide)⟩

/-- C4 counterexample: on the empty transaction sequence
`criar_matriz_interacao` returns a value — the empty matrix — instead of
failing with any error (no `EmptyInputError` exists anywhere in the code;
pandas `pivot_table` on an empty frame yields an empty frame). -/
theorem criar_matriz_interacao_empty_counterexample :
    (criar_matriz_interacao []).rows = [] ∧
      (criar_matriz_interacao []).cols = [] := by
  constructor <;> decide

/-- C4 (amended): on the empty transaction sequence the builder does not
fail; it returns the empty matrix — no rows, no columns, and every cell at
the fill value 0. -/
theorem criar_matriz_interacao_empty :
    (criar_matriz_interacao []).rows = [] ∧
      (criar_matriz_interacao []).cols = [] ∧
      ∀ c p, (criar_matriz_interacao []).entry c p = 0 := by
  refine ⟨by decide, by decide, fun c p => ?_⟩
  simp [criar_matriz_interacao, registrosPar]

/-! ## Claims about the recommendation generator: error handling and k = 0 -/

/-- C3: `obter_recomendacoes` fails with the unknown-customer error
(the `KeyError` of `matriz.loc[cliente_id]`, line 107) exactly when the
target is not a row of the matrix; when the target is a row, whatever else
happens, this error is never the outcome. -/
theorem obter_recomendacoes_unknown_customer {α : Type} [LinearOrder α]
    (cliente : Nat) (m : MatrizInteracao) (s : SimDF α) (k : Nat) :
    (cliente ∉ m.rows →
      obter_recomendacoes cliente m s k = .error .unknownCustomer)
    ∧ (cliente ∈ m.rows →
      obter_recomendacoes cliente m s k ≠ .error .unknownCustomer) := by
  constructor
  · intro h
    simp [obter_recomendacoes, h]
  · intro h
    simp only [obter_recomendacoes, if_pos h]
    by_cases h2 : cliente ∈ s.cols
    · rw [if_pos h2]
      by_cases h3 : ∀ vs ∈ similaresDe s cliente k, vs.1 ∈ m.rows
      · rw [if_pos h3]; simp
      · rw [if_neg h3]; simp
    · rw [if_neg h2]; simp

/-- Similarity DataFrame used for concrete error-handling inputs:
indexed by customers 1 and 2 with all scores 0. -/
def sPlano : SimDF ℚ where
  idx := [1, 2]
  cols := [1, 2]
  val := fun _ _ => 0

/-- Witness for C3: customer 7 is not a row of `mZero`, so the call fails
with the unknown-customer error; customer 1 is a row, and the call does
not produce that error. -/
theorem obter_recomendacoes_unknown_customer_witness :
    (7 ∉ mZero.rows ∧
      obter_recomendacoes 7 mZero sPlano 3 = .error .unknownCustomer) ∧
    (1 ∈ mZero.rows ∧
      obter_recomendacoes 1 mZero sPlano 3 ≠ .error .unknownCustomer) :=
  ⟨⟨by decide,
    (obter_recomendacoes_unknown_customer 7 mZero sPlano 3).1 (by decide)⟩,
   ⟨by decide,
    (obter_recomendacoes_unknown_customer 1 mZero sPlano 3).2 (by decide)⟩⟩

/-- C10: with `n_vizinhos = 0` the slice `[1:1]` is empty, so the call
does not raise: it returns the normally computed purchased set, an empty
neighbour ranking and an empty recommendation list. -/
theorem obter_recomendacoes_k_zero {α : Type} [LinearOrder α]
    (cliente : Nat) (m : MatrizInteracao) (s : SimDF α)
    (h1 : cliente ∈ m.rows) (h2 : cliente ∈ s.cols) :
    obter_recomendacoes cliente m s 0 =
      .ok ⟨positiveProducts m cliente, [], []⟩ := by
  have hsim : similaresDe s cliente 0 = [] := by
    simp [similaresDe]
  rw [obter_eq_ok h1 h2 (by simp [hsim])]
  rw [hsim]
  rfl

/-- Witness for C10 at `mZero`/`sPlano` with target 2 (who bought 3 units
of product 5). -/
theorem obter_recomendacoes_k_zero_witness :
    2 ∈ mZero.rows ∧ 2 ∈ sPlano.cols ∧
      obter_recomendacoes 2 mZero sPlano 0 =
        .ok ⟨positiveProducts mZero 2, [], []⟩ :=
  ⟨by decide, by decide,
    obter_recomendacoes_k_zero 2 mZero sPlano (by decide) (by decide)⟩

/-! ## Claims about the recommendation ranking order -/

/-- C6 (amended): the recommendation list is sorted by score descending.
The tie-break among equal scores is NOT ascending product id: Python's
`sorted` is stable, so tied products stay in dictionary-insertion order
(the order in which they were first contributed by the ranked
neighbours); repeated calls are deterministic all the same. -/
theorem obter_recomendacoes_sorted_desc {α : Type} [LinearOrder α]
    (cliente : Nat) (m : MatrizInteracao) (s : SimDF α) (k : Nat) :
    (recsOf (obter_recomendacoes cliente m s k)).Pairwise
      (fun a b => b.2.score ≤ a.2.score) := by
  by_cases h1 : cliente ∈ m.rows
  · by_cases h2 : cliente ∈ s.cols
    · by_cases h3 : ∀ vs ∈ similaresDe s cliente k, vs.1 ∈ m.rows
      · rw [obter_eq_ok h1 h2 h3]
        simp only [recsOf]
        exact sortDescStable_pairwise (fun pe : Nat × RecInfo α => pe.2.score) _
      · simp only [obter_recomendacoes, if_pos h1, if_pos h2, if_neg h3, recsOf]
        exact List.Pairwise.nil
    · simp only [obter_recomendacoes, if_pos h1, if_neg h2, recsOf]
      exact List.Pairwise.nil
  · simp only [obter_recomendacoes, if_neg h1, recsOf]
    exact List.Pairwise.nil

/-- Interaction matrix for the C6 counterexample: customer 2 bought
product 3, customer 4 bought product 9; customers 1 and 3 bought
nothing. -/
def mLaco : MatrizInteracao where
  rows := [1, 2, 3, 4]
  cols := [3, 9]
  entry := fun c p =>
    if c = 2 ∧ p = 3 then 1 else if c = 4 ∧ p = 9 then 1 else 0

/-- Similarity DataFrame for the C6 counterexample: in target 1's column,
customers 2 and 4 are tied at 9/10 and customer 3 scores 1/2. -/
def sLaco : SimDF ℚ where
  idx := [1, 2, 3, 4]
  cols := [1, 2, 3, 4]
  val := fun c t =>
    if t = 1 then
      if c = 1 then 1
      else if c = 2 then mkRat 9 10
      else if c = 3 then mkRat 1 2
      else if c = 4 then mkRat 9 10
      else 0
    else 0

/-- C6 counterexample: for target 1 with k = 3, products 9 and 3 end with
the equal score 9/10, and the returned order is [9, 3] — first-discovery
order (neighbour 4 then neighbour 2), not ascending product id [3, 9]. -/
theorem obter_recomendacoes_tie_not_ascending_counterexample :
    (recsOf (obter_recomendacoes 1 mLaco sLaco 3)).map
        (fun pe => (pe.1, pe.2.score)) =
      [(9, mkRat 9 10), (3, mkRat 9 10)] := by
  decide

/-! ## Claims about the recommendation scores -/

/-- Every entry of the returned recommendation list is the summary of its
non-empty supporter list: score = left-fold of `max` over the supporters'
similarity scores, `vizinhos` = the supporters in processing order; and
the result components are the stage values. -/
theorem mem_recsOf {α : Type} [LinearOrder α] {cliente : Nat}
    {m : MatrizInteracao} {s : SimDF α} {k p : Nat} {e : RecInfo α}
    (h : (p, e) ∈ recsOf (obter_recomendacoes cliente m s k)) :
    ∃ vs rest,
      suporte m (positiveProducts m cliente) (similaresDe s cliente k) p =
        vs :: rest ∧
      e = ⟨maxScore vs.2 rest, (vs :: rest).map Prod.fst⟩ ∧
      similaresOf (obter_recomendacoes cliente m s k) =
        similaresDe s cliente k ∧
      compradosOf (obter_recomendacoes cliente m s k) =
        positiveProducts m cliente := by
  by_cases h1 : cliente ∈ m.rows
  · by_cases h2 : cliente ∈ s.cols
    · by_cases h3 : ∀ vs ∈ similaresDe s cliente k, vs.1 ∈ m.rows
      · rw [obter_eq_ok h1 h2 h3] at h ⊢
        simp only [recsOf] at h
        have hmem : (p, e) ∈
            agregaRecs m (positiveProducts m cliente) (similaresDe s cliente k) :=
          (sortDescStable_perm (fun pe => pe.2.score) _).mem_iff.mp h
        have hbusca :=
          (mem_iff_busca (agregaRecs_keys_nodup m _ _) p e).mp hmem
        rw [busca_agregaRecs] at hbusca
        cases hsup : suporte m (positiveProducts m cliente)
            (similaresDe s cliente k) p with
        | nil => rw [hsup] at hbusca; simp [resumo] at hbusca
        | cons vs rest =>
          rw [hsup] at hbusca
          simp only [resumo, Option.some_inj] at hbusca
          exact ⟨vs, rest, rfl, hbusca.symm, rfl, rfl⟩
      · simp [obter_recomendacoes, if_pos h1, if_pos h2, if_neg h3, recsOf] at h
    · simp [obter_recomendacoes, if_pos h1, if_neg h2, recsOf] at h
  · simp [obter_recomendacoes, if_neg h1, recsOf] at h

theorem mem_suporte_iff {α : Type} {m : MatrizInteracao}
    {comprados : List Nat} {sims : List (Nat × α)} {p : Nat} {vs : Nat × α} :
    vs ∈ suporte m comprados sims p ↔
      vs ∈ sims ∧ p ∈ produtosNovos m comprados vs.1 := by
  simp [suporte, List.mem_filter]

theorem mem_produtosNovos_iff {m : MatrizInteracao} {comprados : List Nat}
    {v p : Nat} :
    p ∈ produtosNovos m comprados v ↔
      p ∈ positiveProducts m v ∧ p ∉ comprados := by
  simp [produtosNovos, List.mem_filter]

/-- C9: no product in the returned recommendation list is a member of the
returned purchased-product set (candidates are drawn from
`produtos_vizinho - produtos_comprados`). -/
theorem obter_recomendacoes_exclusion {α : Type} [LinearOrder α]
    (cliente : Nat) (m : MatrizInteracao) (s : SimDF α) (k : Nat)
    (pe : Nat × RecInfo α)
    (h : pe ∈ recsOf (obter_recomendacoes cliente m s k)) :
    pe.1 ∉ compradosOf (obter_recomendacoes cliente m s k) := by
  obtain ⟨p, e⟩ := pe
  obtain ⟨vs, rest, hsup, _, _, hcompr⟩ := mem_recsOf h
  have hvs : vs ∈ suporte m (positiveProducts m cliente)
      (similaresDe s cliente k) p := by
    rw [hsup]; exact List.mem_cons_self vs rest
  have hnov := (mem_suporte_iff.mp hvs).2
  have hnc := (mem_produtosNovos_iff.mp hnov).2
  rw [hcompr]
  exact hnc

/-- Witness for C9 at the concrete run on `mLaco`/`sLaco`: product 9 is
recommended and is not among target 1's purchases. -/
theorem obter_recomendacoes_exclusion_witness :
    ((9, (⟨mkRat 9 10, [4]⟩ : RecInfo ℚ)) ∈
        recsOf (obter_recomendacoes 1 mLaco sLaco 3)) ∧
      (9, (⟨mkRat 9 10, [4]⟩ : RecInfo ℚ)).1 ∉
        compradosOf (obter_recomendacoes 1 mLaco sLaco 3) :=
  ⟨by decide,
    obter_recomendacoes_exclusion 1 mLaco sLaco 3 (9, ⟨mkRat 9 10, [4]⟩)
      (by decide)⟩

/-- C5: each recommendation's score equals the maximum similarity score
among the selected neighbours that purchased that product (an upper bound
that is attained), and — max-aggregation — processing additional
neighbours can never decrease the score an entry already has. -/
theorem obter_recomendacoes_score_is_max :
    (∀ (α : Type) [LinearOrder α] (cliente : Nat) (m : MatrizInteracao)
        (s : SimDF α) (k p : Nat) (e : RecInfo α),
        (p, e) ∈ recsOf (obter_recomendacoes cliente m s k) →
        (∀ vs ∈ similaresOf (obter_recomendacoes cliente m s k),
            p ∈ positiveProducts m vs.1 → vs.2 ≤ e.score) ∧
        (∃ vs ∈ similaresOf (obter_recomendacoes cliente m s k),
            p ∈ positiveProducts m vs.1 ∧ vs.2 = e.score))
    ∧ (∀ (α : Type) [LinearOrder α] (m : MatrizInteracao)
        (comprados : List Nat) (sims extra : List (Nat × α)) (p : Nat)
        (e e' : RecInfo α),
        busca (agregaRecs m comprados sims) p = some e →
        busca (agregaRecs m comprados (sims ++ extra)) p = some e' →
        e.score ≤ e'.score) := by
  constructor
  · intro α _ cliente m s k p e h
    obtain ⟨vs, rest, hsup, he, hsim, hcompr⟩ := mem_recsOf h
    have hvs : vs ∈ suporte m (positiveProducts m cliente)
        (similaresDe s cliente k) p := by
      rw [hsup]; exact List.mem_cons_self vs rest
    have hnc : p ∉ positiveProducts m cliente :=
      (mem_produtosNovos_iff.mp (mem_suporte_iff.mp hvs).2).2
    have hscore : e.score = maxScore vs.2 rest := by rw [he]
    constructor
    · intro vs' hvs' hpos
      rw [hsim] at hvs'
      have hsup' : vs' ∈ suporte m (positiveProducts m cliente)
          (similaresDe s cliente k) p :=
        mem_suporte_iff.mpr ⟨hvs', mem_produtosNovos_iff.mpr ⟨hpos, hnc⟩⟩
      rw [hsup] at hsup'
      rw [hscore]
      rcases List.mem_cons.mp hsup' with rfl | hmem
      · exact le_maxScore_init vs'.2 rest
      · exact le_maxScore_mem hmem vs.2
    · rcases maxScore_attained vs.2 rest with hat | ⟨w, hw, hww⟩
      · refine ⟨vs, ?_, ?_, by rw [hscore, hat]⟩
        · rw [hsim]
          exact (mem_suporte_iff.mp hvs).1
        · exact (mem_produtosNovos_iff.mp (mem_suporte_iff.mp hvs).2).1
      · have hwsup : w ∈ suporte m (positiveProducts m cliente)
            (similaresDe s cliente k) p := by
          rw [hsup]; exact List.mem_cons_of_mem vs hw
        refine ⟨w, ?_, ?_, by rw [hscore, hww]⟩
        · rw [hsim]
          exact (mem_suporte_iff.mp hwsup).1
        · exact (mem_produtosNovos_iff.mp (mem_suporte_iff.mp hwsup).2).1
  · intro α _ m comprados sims extra p e e' h1 h2
    rw [busca_agregaRecs] at h1 h2
    have hsplit : suporte m comprados (sims ++ extra) p =
        suporte m comprados sims p ++ suporte m comprados extra p := by
      simp [suporte, List.filter_append]
    rw [hsplit] at h2
    cases hsup : suporte m comprados sims p with
    | nil => rw [hsup] at h1; simp [resumo] at h1
    | cons vs rest =>
      rw [hsup] at h1 h2
      simp only [resumo, Option.some_inj, List.cons_append] at h1 h2
      rw [← h1, ← h2]
      simp only [maxScore_append]
      exact le_maxScore_init _ _

/-- Witness for C5: part one at the concrete run on `mLaco`/`sLaco` for
product 9; part two at a concrete aggregation where a second pass over
neighbour 4 with score 1 raises the entry's score from 9/10 to 1. -/
theorem obter_recomendacoes_score_is_max_witness :
    ((9, (⟨mkRat 9 10, [4]⟩ : RecInfo ℚ)) ∈
        recsOf (obter_recomendacoes 1 mLaco sLaco 3)) ∧
      (∀ vs ∈ similaresOf (obter_recomendacoes 1 mLaco sLaco 3),
          9 ∈ positiveProducts mLaco vs.1 →
            vs.2 ≤ (⟨mkRat 9 10, [4]⟩ : RecInfo ℚ).score) ∧
      (∃ vs ∈ similaresOf (obter_recomendacoes 1 mLaco sLaco 3),
          9 ∈ positiveProducts mLaco vs.1 ∧
            vs.2 = (⟨mkRat 9 10, [4]⟩ : RecInfo ℚ).score) ∧
      busca (agregaRecs mLaco [] [(4, mkRat 9 10)]) 9 =
        some ⟨mkRat 9 10, [4]⟩ ∧
      busca (agregaRecs mLaco [] ([(4, mkRat 9 10)] ++ [(4, 1)])) 9 =
        some ⟨1, [4, 4]⟩ ∧
      (⟨mkRat 9 10, [4]⟩ : RecInfo ℚ).score ≤ (⟨1, [4, 4]⟩ : RecInfo ℚ).score :=
  ⟨by decide,
    (obter_recomendacoes_score_is_max.1 ℚ 1 mLaco sLaco 3 9 _ (by decide)).1,
    (obter_recomendacoes_score_is_max.1 ℚ 1 mLaco sLaco 3 9 _ (by decide)).2,
    by decide, by decide,
    obter_recomendacoes_score_is_max.2 ℚ mLaco [] [(4, mkRat 9 10)] [(4, 1)] 9
      ⟨mkRat 9 10, [4]⟩ ⟨1, [4, 4]⟩ (by decide) (by decide)⟩

/-! ## Claims about the neighbour ranking -/

/-- Interaction matrix for the C1 counterexample: customers 1 and 3 bought
product 10 (1 and 2 units — proportional vectors), customer 2 bought
nothing. -/
def mTrio : MatrizInteracao where
  rows := [1, 2, 3]
  cols := [10]
  entry := fun c p =>
    if c = 1 ∧ p = 10 then 1 else if c = 3 ∧ p = 10 then 2 else 0

/-- Similarity DataFrame for the C1 counterexample — exactly the cosine
similarities of `mTrio` (customer 2 is all-zero, so its row and column are
0; customers 1 and 3 are proportional, so their similarity is 1). -/
def sTrio : SimDF ℚ where
  idx := [1, 2, 3]
  cols := [1, 2, 3]
  val := fun i j => if i = 2 ∨ j = 2 then 0 else 1

/-- C1 counterexample: target 2 (all-zero row, so its whole similarity
column is 0) with k = 2: the slice `[1:3]` of the sorted column keeps the
target itself (customer 2) and customer 1, and drops customer 3 — the
ranking neither excludes the target nor consists of the other customers. -/
theorem obter_recomendacoes_ranking_counterexample :
    (similaresOf (obter_recomendacoes 2 mTrio sTrio 2)).map Prod.fst =
      [2, 1] := by
  decide

theorem colunaSim_pairs {α : Type} {s : SimDF α} {cliente : Nat}
    {p : Nat × α} (h : p ∈ colunaSim s cliente) :
    p.1 ∈ s.idx ∧ p.2 = s.val p.1 cliente := by
  rcases List.mem_map.mp h with ⟨c, hc, rfl⟩
  exact ⟨hc, rfl⟩

/-- C1 (amended): the code excludes not the target but whichever entry the
descending sort ranks first.  Whenever the target's self-similarity
strictly exceeds every other customer's similarity to the target (and the
index has no duplicates), that first entry is the target, and the claim's
conclusions hold: the call succeeds, the ranking excludes the target,
carries the actual similarity scores sorted descending, consists of the
top `min k (n-1)` other customers (every unselected other customer scores
no higher than any selected one), and equals exactly the other customers
when `k` is at least their number.  Without strict dominance the target
can be retained (see the counterexample). -/
theorem obter_recomendacoes_neighbor_ranking {α : Type} [LinearOrder α]
    (cliente : Nat) (m : MatrizInteracao) (s : SimDF α) (k : Nat)
    (h1 : cliente ∈ m.rows) (h2 : cliente ∈ s.cols)
    (hidx : s.idx.Nodup) (hmem : cliente ∈ s.idx)
    (hrows : ∀ c ∈ s.idx, c ∈ m.rows)
    (hmax : ∀ c ∈ s.idx, c ≠ cliente → s.val c cliente < s.val cliente cliente) :
    (resultOf (obter_recomendacoes cliente m s k)).isSome ∧
    (∀ p ∈ similaresOf (obter_recomendacoes cliente m s k), p.1 ≠ cliente) ∧
    (similaresOf (obter_recomendacoes cliente m s k)).Pairwise
      (fun a b => b.2 ≤ a.2) ∧
    (∀ p ∈ similaresOf (obter_recomendacoes cliente m s k),
      p.2 = s.val p.1 cliente) ∧
    (similaresOf (obter_recomendacoes cliente m s k)).length =
      min k (s.idx.length - 1) ∧
    (∀ p ∈ similaresOf (obter_recomendacoes cliente m s k),
      ∀ c ∈ s.idx, c ≠ cliente →
        c ∉ (similaresOf (obter_recomendacoes cliente m s k)).map Prod.fst →
        s.val c cliente ≤ p.2) ∧
    (s.idx.length - 1 ≤ k →
      (similaresOf (obter_recomendacoes cliente m s k)).map Prod.fst ~
        s.idx.erase cliente) := by
  have hf : Function.Injective (fun c => (c, s.val c cliente)) := by
    intro a b hab
    exact congrArg Prod.fst hab
  set f : Nat → Nat × α := fun c => (c, s.val c cliente) with hfdef
  have ht : f cliente ∈ colunaSim s cliente :=
    List.mem_map.mpr ⟨cliente, hmem, rfl⟩
  have hmax' : ∀ y ∈ colunaSim s cliente, y ≠ f cliente →
      y.2 < (f cliente).2 := by
    intro y hy hne
    rcases colunaSim_pairs hy with ⟨hc, hval⟩
    have hcne : y.1 ≠ cliente := by
      intro hc1
      apply hne
      have : y = (y.1, y.2) := rfl
      rw [this, hval, hc1]
    rw [hval]
    exact hmax y.1 hc hcne
  obtain ⟨r, hsort, _⟩ :=
    sortValuesDesc_eq_cons_of_strictMax Prod.snd ht hmax'
  have hcol : f cliente :: r ~ colunaSim s cliente := by
    rw [← hsort]
    exact sortValuesDesc_perm Prod.snd (colunaSim s cliente)
  have hcol2 : colunaSim s cliente ~ f cliente :: (s.idx.erase cliente).map f := by
    rw [colunaSim]
    exact (List.perm_cons_erase hmem).map f
  have hrperm' : r ~ (s.idx.erase cliente).map f :=
    (hcol.trans hcol2).cons_inv
  have hsimil : similaresDe s cliente k = r.take k := by
    rw [similaresDe, hsort]
    rfl
  have hrmem : ∀ p ∈ r, p.1 ∈ s.idx.erase cliente ∧ p.1 ≠ cliente ∧
      p.2 = s.val p.1 cliente ∧ p.1 ∈ s.idx := by
    intro p hp
    rcases List.mem_map.mp (hrperm'.mem_iff.mp hp) with ⟨c, hc, rfl⟩
    have hcp : c ≠ cliente := ((List.Nodup.mem_erase_iff hidx).mp hc).1
    have hci : c ∈ s.idx := ((List.Nodup.mem_erase_iff hidx).mp hc).2
    exact ⟨hc, hcp, rfl, hci⟩
  have htake : ∀ p ∈ similaresDe s cliente k, p ∈ r := by
    intro p hp
    rw [hsimil] at hp
    exact List.mem_of_mem_take hp
  have h3 : ∀ vs ∈ similaresDe s cliente k, vs.1 ∈ m.rows := by
    intro vs hvs
    exact hrows vs.1 (hrmem vs (htake vs hvs)).2.2.2
  have hok := obter_eq_ok (k := k) h1 h2 h3
  rw [hok]
  simp only [resultOf, similaresOf, Option.isSome_some, true_and]
  have hrpw : r.Pairwise (fun a b => b.2 ≤ a.2) := by
    have := sortValuesDesc_pairwise Prod.snd (colunaSim s cliente)
    rw [hsort] at this
    exact (List.pairwise_cons.mp this).2
  refine ⟨?_, ?_, ?_, ?_, ?_, ?_⟩
  · intro p hp
    exact (hrmem p (htake p hp)).2.1
  · rw [hsimil]
    exact hrpw.sublist (List.take_sublist k r)
  · intro p hp
    exact (hrmem p (htake p hp)).2.2.1
  · rw [hsimil, List.length_take]
    have : r.length = s.idx.length - 1 := by
      have hlen : (sortValuesDesc Prod.snd (colunaSim s cliente)).length =
          s.idx.length := by
        rw [(sortValuesDesc_perm Prod.snd (colunaSim s cliente)).length_eq]
        simp [colunaSim]
      rw [hsort] at hlen
      simp at hlen
      omega
    rw [this]
  · intro p hp c hc hcne hcnot
    have hfcr : f c ∈ r := by
      apply hrperm'.mem_iff.mpr
      exact List.mem_map.mpr ⟨c, (List.Nodup.mem_erase_iff hidx).mpr ⟨hcne, hc⟩, rfl⟩
    have hfcnot : f c ∉ r.take k := by
      intro hcontra
      apply hcnot
      rw [hsimil]
      exact List.mem_map.mpr ⟨f c, hcontra, rfl⟩
    have hfcdrop : f c ∈ r.drop k := by
      have := (List.take_append_drop k r) ▸ hfcr
      rcases List.mem_append.mp this with h | h
      · exact absurd h hfcnot
      · exact h
    have hsplit : r.Pairwise (fun a b => b.2 ≤ a.2) := hrpw
    rw [← List.take_append_drop k r] at hsplit
    have hcross := (List.pairwise_append.mp hsplit).2.2
    rw [hsimil] at hp
    exact hcross p hp (f c) hfcdrop
  · intro hk
    have hrlen : r.length ≤ k := by
      have hlen : (sortValuesDesc Prod.snd (colunaSim s cliente)).length =
          s.idx.length := by
        rw [(sortValuesDesc_perm Prod.snd (colunaSim s cliente)).length_eq]
        simp [colunaSim]
      rw [hsort] at hlen
      simp at hlen
      omega
    rw [hsimil, List.take_of_length_le hrlen]
    have hmapeq : ((s.idx.erase cliente).map f).map Prod.fst =
        s.idx.erase cliente := by
      rw [List.map_map]
      have hstep : (s.idx.erase cliente).map (Prod.fst ∘ f) =
          (s.idx.erase cliente).map id :=
        List.map_congr_left (fun c _ => rfl)
      rw [hstep, List.map_id]
    rw [← hmapeq]
    exact hrperm'.map Prod.fst

/-- Interaction matrix for the amended-C1 witness. -/
def mVip : MatrizInteracao where
  rows := [1, 2, 3]
  cols := [10]
  entry := fun c p =>
    if c = 1 ∧ p = 10 then 1 else if c = 2 ∧ p = 10 then 2 else 0

/-- Similarity DataFrame for the amended-C1 witness: target 1's
self-similarity 1 strictly exceeds the other scores 1/2 and 1/4. -/
def sVip : SimDF ℚ where
  idx := [1, 2, 3]
  cols := [1, 2, 3]
  val := fun c t =>
    if t = 1 then
      if c = 1 then 1 else if c = 2 then mkRat 1 2 else mkRat 1 4
    else 0

/-- Witness for the amended C1 at target 1 of `mVip`/`sVip` with k = 2. -/
theorem obter_recomendacoes_neighbor_ranking_witness :
    (1 ∈ mVip.rows) ∧ (1 ∈ sVip.cols) ∧ sVip.idx.Nodup ∧ (1 ∈ sVip.idx) ∧
    (∀ c ∈ sVip.idx, c ∈ mVip.rows) ∧
    (∀ c ∈ sVip.idx, c ≠ 1 → sVip.val c 1 < sVip.val 1 1) ∧
    ((resultOf (obter_recomendacoes 1 mVip sVip 2)).isSome ∧
     (∀ p ∈ similaresOf (obter_recomendacoes 1 mVip sVip 2), p.1 ≠ 1) ∧
     (similaresOf (obter_recomendacoes 1 mVip sVip 2)).Pairwise
       (fun a b => b.2 ≤ a.2) ∧
     (∀ p ∈ similaresOf (obter_recomendacoes 1 mVip sVip 2),
       p.2 = sVip.val p.1 1) ∧
     (similaresOf (obter_recomendacoes 1 mVip sVip 2)).length =
       min 2 (sVip.idx.length - 1) ∧
     (∀ p ∈ similaresOf (obter_recomendacoes 1 mVip sVip 2),
       ∀ c ∈ sVip.idx, c ≠ 1 →
         c ∉ (similaresOf (obter_recomendacoes 1 mVip sVip 2)).map Prod.fst →
         sVip.val c 1 ≤ p.2) ∧
     (sVip.idx.length - 1 ≤ 2 →
       (similaresOf (obter_recomendacoes 1 mVip sVip 2)).map Prod.fst ~
         sVip.idx.erase 1)) :=
  ⟨by decide, by decide, by decide, by decide, by decide, by decide,
    obter_recomendacoes_neighbor_ranking 1 mVip sVip 2 (by decide) (by decide)
      (by decide) (by decide) (by decide) (by decide)⟩

end Contoso
